import Mathlib

/-!
Verification development for the wellness-habit analysis core (`app.py`).

The reusable computational core of the application is shallowly embedded
here, function by function:

* `t2m`, `parse_features`   — the time/feature parser (app.py lines 15-29);
* `recommend_for_values`    — the rule engine (lines 32-74);
* `dataset_recommendations` — dataset-level advice (lines 76-93);
* `topMoodDay`              — the weekday/mood insight (lines 172-175);
* the Pearson-correlation quantities behind the correlation matrix and the
  correlation notes (lines 84-92 and 183-186).

Python floats are modelled with exact rationals; `None`/`NaN` cells are
modelled with `Option`/`CellVal.null`; Python exceptions are modelled with
`Except PyErr`.
-/

attribute [local semireducible] Rat.add Rat.mul Rat.inv Rat.sub Rat.ofScientific

namespace Wellness

/-- Kinds of Python exceptions the embedded code can raise. -/
inductive PyErr where
  | keyError
  | attributeError
  | typeError
deriving DecidableEq, Repr

deriving instance DecidableEq for Except

/-! ### String splitting and Python `int()` -/

/-- Python `s.split(sep)` for a one-character separator, on the character
list of the string.  `"".split(":") == [""]`, `"::".split(":") == ["","",""]`. -/
def splitOn (sep : Char) : List Char → List (List Char)
  | [] => [[]]
  | c :: rest =>
    if c = sep then [] :: splitOn sep rest
    else
      match splitOn sep rest with
      | [] => [[c]]
      | g :: gs => (c :: g) :: gs

/-- Leading and trailing whitespace stripped by Python `int(str)`. -/
def stripWs (cs : List Char) : List Char :=
  ((cs.dropWhile Char.isWhitespace).reverse.dropWhile Char.isWhitespace).reverse

/-- No two adjacent underscores (part of Python's integer-literal grammar). -/
def noAdjUnderscore : List Char → Bool
  | '_' :: '_' :: _ => false
  | _ :: rest => noAdjUnderscore rest
  | [] => true

/-- Digit-sequence validity for Python `int()`: non-empty, made of ASCII
digits with single underscores allowed strictly between digits. -/
def validDigits (cs : List Char) : Bool :=
  !cs.isEmpty &&
  cs.all (fun c => c.isDigit || c = '_') &&
  (match cs.head? with | some c => c.isDigit | none => false) &&
  (match cs.getLast? with | some c => c.isDigit | none => false) &&
  noAdjUnderscore cs

/-- Numeric value of a digit sequence, underscores skipped. -/
def digitsVal (cs : List Char) : Nat :=
  cs.foldl (fun a c => if c = '_' then a else a * 10 + (c.toNat - 48)) 0

/-- Model of Python `int(s)`: optional surrounding whitespace, optional
sign, then a digit sequence; `none` models the raised `ValueError`. -/
def pyInt (cs : List Char) : Option Int :=
  let cs := stripWs cs
  match cs with
  | '+' :: rest => if validDigits rest then some (Int.ofNat (digitsVal rest)) else none
  | '-' :: rest => if validDigits rest then some (-(Int.ofNat (digitsVal rest))) else none
  | _ => if validDigits cs then some (Int.ofNat (digitsVal cs)) else none

/-- Model of `t2m` (app.py lines 16-20): split on `":"`, convert both parts
with `int`, return `h*60 + m`; any failure (the 2-tuple unpacking or either
`int`) is caught by the bare `except` and yields `NaN`, modelled as `none`.
No range check is performed on hour or minute. -/
def t2m (x : String) : Option Int :=
  match splitOn ':' x.data with
  | [h, m] =>
    match pyInt h, pyInt m with
    | some hv, some mv => some (hv * 60 + mv)
    | _, _ => none
  | _ => none

/-! ### Rounding and dates -/

/-- Rounding to two decimal places, as in `(series).round(2)` and `f"{x:.2f}"`.
The float tie-breaking rule is irrelevant at every use in this development:
the rounded quantities are never exact midpoints of two-decimal values. -/
def round2 (q : ℚ) : ℚ := (round (q * 100) : ℤ) / 100

/-- All characters are ASCII digits and the sequence is non-empty. -/
def digitsOnly (cs : List Char) : Bool := !cs.isEmpty && cs.all Char.isDigit

/-- Numeric value of a plain digit sequence. -/
def natOfDigits (cs : List Char) : Nat :=
  cs.foldl (fun a c => a * 10 + (c.toNat - 48)) 0

/-- Gregorian leap year. -/
def isLeap (y : Nat) : Bool := (y % 4 == 0 && y % 100 != 0) || y % 400 == 0

/-- Days in a month of the Gregorian calendar. -/
def daysInMonth (y m : Nat) : Nat :=
  if m = 2 then (if isLeap y then 29 else 28)
  else if m = 4 || m = 6 || m = 9 || m = 11 then 30
  else 31

/-- Modelled subset of `pd.to_datetime(..., errors="coerce")`: ISO
`YYYY-MM-DD` dates; anything else coerces to `NaT` (`none`).  (The real
parser accepts more formats; no claim depends on the accepted set.) -/
def parseDate (s : String) : Option (Nat × Nat × Nat) :=
  match splitOn '-' s.data with
  | [y, m, d] =>
    if digitsOnly y && digitsOnly m && digitsOnly d then
      let yv := natOfDigits y
      let mv := natOfDigits m
      let dv := natOfDigits d
      if 1 ≤ mv && mv ≤ 12 && 1 ≤ dv && dv ≤ daysInMonth yv mv then
        some (yv, mv, dv)
      else none
    else none
  | _ => none

/-- Full English weekday name of a Gregorian date, as produced by
`Series.dt.day_name()`; computed with Zeller's congruence. -/
def dayName (y m d : Nat) : String :=
  let y' := if m ≤ 2 then y - 1 else y
  let m' := if m ≤ 2 then m + 12 else m
  let k := y' % 100
  let j := y' / 100
  let h := (d + 13 * (m' + 1) / 5 + k + k / 4 + j / 4 + 5 * j) % 7
  [ "Saturday", "Sunday", "Monday", "Tuesday", "Wednesday", "Thursday",
    "Friday"].getD h ("")

/-! ### Cells and dataframes -/

/-- One cell of a dataframe: a raw string, a number, a parsed datetime, or a
missing value (`None`/`NaN`/`NaT`). -/
inductive CellVal where
  | str (s : String)
  | num (q : ℚ)
  | date (y m d : Nat)
  | null
deriving DecidableEq, Repr

/-- A dataframe: named columns of cells, in column order. -/
structure Frame where
  cols : List (String × List CellVal)
deriving DecidableEq, Repr

/-- Column lookup, `df.get(name)`-style: `none` when the column is absent. -/
def getCol (f : Frame) (name : String) : Option (List CellVal) :=
  (f.cols.find? (fun p => p.1 == name)).map Prod.snd

/-- Column-presence test, `name in df.columns`. -/
def hasCol (f : Frame) (name : String) : Bool :=
  f.cols.any (fun p => p.1 == name)

/-- Column assignment `df[name] = v`: replace the column in place, or append
a new column at the end. -/
def setCol (f : Frame) (name : String) (v : List CellVal) : Frame :=
  if hasCol f name then
    ⟨f.cols.map (fun p => if p.1 == name then (name, v) else p)⟩
  else ⟨f.cols ++ [(name, v)]⟩

/-! ### The feature parser `parse_features` (app.py lines 15-29) -/

/-- Cellwise `pd.to_datetime(..., errors="coerce")`: strings are parsed as
dates, anything unparseable coerces to `NaT`.  (Numeric cells, which real
pandas would read as epoch offsets, are modelled as unparseable; no claim
involves a numeric `Date` cell.) -/
def toDatetimeCell : CellVal → CellVal
  | .str s =>
    match parseDate s with
    | some (y, m, d) => .date y m d
    | none => .null
  | .date y m d => .date y m d
  | _ => .null

/-- Cellwise `Series.apply(t2m)`: Python first applies `str(x)`; a string
cell is parsed with `t2m`, and any non-string cell (a float, `NaN`, …)
stringifies to something without a valid `"H:M"` shape, hence `NaN`. -/
def t2mCell : CellVal → CellVal
  | .str s =>
    match t2m s with
    | some v => .num (v : ℚ)
    | none => .null
  | _ => .null

/-- Cellwise `(wake_minutes / 60).round(2)`. -/
def wakeHourCell : CellVal → CellVal
  | .num w => .num (round2 (w / 60))
  | _ => .null

/-- Cellwise `Series.dt.day_name()`: `NaT` gives `NaN`. -/
def dayNameCell : CellVal → CellVal
  | .date y m d => .str (dayName y m d)
  | _ => .null

/-- Cellwise `water_intake_ml / 1000.0` (null propagates, as for `NaN`). -/
def waterLitersCell : CellVal → CellVal
  | .num w => .num (w / 1000)
  | _ => .null

/-- Model of `parse_features` (app.py lines 15-29).  `df = df.copy()` makes
the body act on a private copy, so the model is a pure function on frames.
`df['Date'] = pd.to_datetime(df['Date'], ...)` reads `df['Date']`
unconditionally and raises `KeyError` when that column is absent; the
wake-time and water blocks are guarded by column-presence checks. -/
def parse_features (f : Frame) : Except PyErr Frame :=
  match getCol f ("Date") with
  | none => .error .keyError
  | some dcol =>
    let f := setCol f ("Date") (dcol.map toDatetimeCell)
    let f :=
      if hasCol f ("Wake_Up_Time") then
        let wm := ((getCol f ("Wake_Up_Time")).getD []).map t2mCell
        let f := setCol f ("Wake_Minutes") wm
        setCol f ("Wake_Hour") (wm.map wakeHourCell)
      else f
    let f := setCol f ("Weekday") (((getCol f ("Date")).getD []).map dayNameCell)
    let f :=
      if hasCol f ("Water_Intake_ml") then
        setCol f ("Water_Liters")
          (((getCol f ("Water_Intake_ml")).getD []).map waterLitersCell)
      else f
    .ok f

/-! ### Heap-level model of `parse_features`

To state the frame property "the caller's dataframe is not mutated" the
aliasing structure of the Python code is made explicit: dataframe objects
live on a heap (a list of frames, references are indices), the function
receives a reference, `df = df.copy()` allocates a fresh object and rebinds
the local name to it, and every subsequent `df[...] = ...` mutates the
object behind the local name in place. -/

/-- Heaps of dataframe objects; a reference is an index into the list. -/
abbrev Heap := List Frame

/-- Dereference (the empty frame stands for an invalid reference; the
embedded program never dereferences one). -/
def heapGet (h : Heap) (r : Nat) : Frame := h.getD r ⟨[]⟩

/-- In-place column assignment on the object at reference `r`. -/
def heapSet (h : Heap) (r : Nat) (name : String) (v : List CellVal) : Heap :=
  h.set r (setCol (heapGet h r) name v)

/-- Imperative model of `parse_features`, line by line, with explicit
references (see the section comment).  Returns the final heap together with
the returned reference or the raised exception. -/
def parse_features_prog (h : Heap) (df : Nat) : Heap × Except PyErr Nat :=
  let r := h.length
  let h := h ++ [heapGet h df]
  match getCol (heapGet h r) ("Date") with
  | none => (h, .error .keyError)
  | some dcol =>
    let h := heapSet h r ("Date") (dcol.map toDatetimeCell)
    let h :=
      if hasCol (heapGet h r) ("Wake_Up_Time") then
        let wm := ((getCol (heapGet h r) ("Wake_Up_Time")).getD []).map t2mCell
        let h := heapSet h r ("Wake_Minutes") wm
        heapSet h r ("Wake_Hour") (wm.map wakeHourCell)
      else h
    let h := heapSet h r ("Weekday")
      (((getCol (heapGet h r) ("Date")).getD []).map dayNameCell)
    let h :=
      if hasCol (heapGet h r) ("Water_Intake_ml") then
        heapSet h r ("Water_Liters")
          (((getCol (heapGet h r) ("Water_Intake_ml")).getD []).map waterLitersCell)
      else h
    (h, .ok r)

/-! ### The rule engine `recommend_for_values` (app.py lines 32-74)

Each scalar argument is an `Option ℚ`: `none` models a value for which
`pd.notna(...)` is false (`None` or `NaN`).  For `mood`, Python's guard is
`mood is not None and pd.notna(mood)`, so the omitted argument, an explicit
`None` and `NaN` all behave identically and are all modelled by `none`. -/

/-- The `sleep` block (lines 34-40): `< 6` low, `> 9.5` oversleep,
otherwise healthy. -/
def sleepAdvice : Option ℚ → List String
  | some s =>
    if s < 6 then ["😴 Sleep seems low → aim for 7–8 hours nightly."]
    else if s > 9.5 then ["🛌 Very long sleep — aim for consistent 7–9 hrs."]
    else ["✅ Sleep within healthy range — keep it regular."]
  | none => []

/-- The `steps` block (lines 41-47): `< 5000` low, `< 8000` almost there,
otherwise good. -/
def stepsAdvice : Option ℚ → List String
  | some st =>
    if st < 5000 then ["🚶 Steps low → add short walks; target 8k+ steps/day."]
    else if st < 8000 then ["🏃 Almost there — add a 15-min brisk walk."]
    else ["✅ Activity level good — maintain variety."]
  | none => []

/-- The `water_ml` block (lines 48-54): `< 2000` low, `> 4000` very high,
otherwise adequate. -/
def waterAdvice : Option ℚ → List String
  | some w =>
    if w < 2000 then ["💧 Hydration low → aim for 2–3 L/day."]
    else if w > 4000 then ["💧 Very high — ensure balance."]
    else ["✅ Hydration seems adequate."]
  | none => []

/-- The `study` block (lines 55-61): `> 8` long, `< 2` pomodoro suggestion,
otherwise balanced. -/
def studyAdvice : Option ℚ → List String
  | some su =>
    if su > 8 then ["🧠 Long study hours — take breaks every hour."]
    else if su < 2 then ["🗓 Try Pomodoro (25/5) sessions."]
    else ["✅ Study routine balanced."]
  | none => []

/-- The `wake_hour` block (lines 62-68): `> 10` late, `< 4.5` very early,
otherwise reasonable. -/
def wakeAdvice : Option ℚ → List String
  | some wa =>
    if wa > 10 then ["⏰ Late wake-up — shift earlier for better circadian rhythm."]
    else if wa < 4.5 then ["⏰ Very early wake — ensure adequate sleep."]
    else ["✅ Wake-up time reasonable."]
  | none => []

/-- The `mood` block (lines 69-73): `< 5` low mood, `≥ 8` good mood, and the
middle band appends nothing. -/
def moodAdvice : Option ℚ → List String
  | some mo =>
    if mo < 5 then ["🌤 Low mood — sunlight and short walks can help."]
    else if mo ≥ 8 then ["🥳 Good mood — note and repeat what helps."]
    else []
  | none => []

/-- Model of `recommend_for_values` (app.py lines 32-74): `tips` starts
empty and each metric block appends its advice in the source order
sleep, steps, water, study, wake, mood. -/
def recommend_for_values (sleep steps water_ml study wake_hour mood : Option ℚ) :
    List String :=
  sleepAdvice sleep ++ stepsAdvice steps ++ waterAdvice water_ml ++
    studyAdvice study ++ wakeAdvice wake_hour ++ moodAdvice mood

/-! ### Means and Pearson correlation -/

/-- Numeric cells of a column, in order (pandas reductions skip nulls). -/
def numCells (col : List CellVal) : List ℚ :=
  col.filterMap (fun c => match c with | .num q => some q | _ => none)

/-- Model of `Series.mean()`: arithmetic mean of the non-null numeric values;
`none` models the `NaN` returned on an all-null column. -/
def colMean (col : List CellVal) : Option ℚ :=
  let v := numCells col
  if v.length = 0 then none else some (v.sum / v.length)

/-- Model of `Series.mean()` with Python's error behaviour: reducing a column that
holds string cells (an `object` column) raises `TypeError`. -/
def colMeanE (col : List CellVal) : Except PyErr (Option ℚ) :=
  if col.any (fun c => match c with | .str _ => true | _ => false) then
    .error .typeError
  else .ok (colMean col)

/-- Rows where both columns hold numeric values — the pairwise-complete
observations on which pandas computes a correlation. -/
def pairedObs (xs ys : List CellVal) : List (ℚ × ℚ) :=
  (xs.zip ys).filterMap (fun p =>
    match p with
    | (.num a, .num b) => some (a, b)
    | _ => none)

/-- Arithmetic mean of a list of rationals (0 on the empty list; every use
is guarded by a non-emptiness or definedness condition). -/
def qmean (l : List ℚ) : ℚ := l.sum / l.length

/-- Observations centered at the two sample means. -/
def centered (ps : List (ℚ × ℚ)) : List (ℚ × ℚ) :=
  ps.map (fun p => (p.1 - qmean (ps.map (fun p => p.1)),
    p.2 - qmean (ps.map (fun p => p.2))))

/-- Centered cross moment `Σ (xᵢ-x̄)(yᵢ-ȳ)`, the numerator of Pearson's r. -/
def sxy (ps : List (ℚ × ℚ)) : ℚ := ((centered ps).map (fun p => p.1 * p.2)).sum

/-- Centered second moment `Σ (xᵢ-x̄)²`. -/
def sxx (ps : List (ℚ × ℚ)) : ℚ := ((centered ps).map (fun p => p.1 ^ 2)).sum

/-- Centered second moment `Σ (yᵢ-ȳ)²`. -/
def syy (ps : List (ℚ × ℚ)) : ℚ := ((centered ps).map (fun p => p.2 ^ 2)).sum

/-- Square of the denominator of Pearson's r. -/
def corrDen (ps : List (ℚ × ℚ)) : ℚ := sxx ps * syy ps

/-- Pearson's r is defined (pandas returns a non-`NaN` value) exactly when
neither column is constant on the paired observations. -/
def corrDefined (ps : List (ℚ × ℚ)) : Prop := 0 < corrDen ps

instance (ps : List (ℚ × ℚ)) : Decidable (corrDefined ps) := by
  unfold corrDefined; infer_instance

/-- The real number `r` is the Pearson correlation of the paired
observations: `r = sxy / √(sxx·syy)`, stated multiplicatively so that all
executable definitions stay rational. -/
def IsCorr (ps : List (ℚ × ℚ)) (r : ℝ) : Prop :=
  r * Real.sqrt ((corrDen ps : ℚ) : ℝ) = ((sxy ps : ℚ) : ℝ)

/-- Decidable rendering of `pd.notna(c) and abs(c) >= 0.25` (line 87): with
`c = sxy/√(sxx·syy)`, this is `0 < den ∧ den ≤ 16·sxy²`. -/
def absCorrGe25 (ps : List (ℚ × ℚ)) : Bool :=
  decide (0 < corrDen ps) && decide (corrDen ps ≤ 16 * sxy ps ^ 2)

/-- Decidable rendering of `pd.notna(c) and c >= 0.25` (line 91, signed):
`0 < den ∧ 0 ≤ sxy ∧ den ≤ 16·sxy²`. -/
def corrGe25 (ps : List (ℚ × ℚ)) : Bool :=
  decide (0 < corrDen ps) && decide (0 ≤ sxy ps) &&
    decide (corrDen ps ≤ 16 * sxy ps ^ 2)

/-! ### Dataset-level recommendations (app.py lines 76-93) -/

/-- A column dtype counts as numeric (`float64`/`int64`) when no cell is a
string: `read_csv` types a column `object` exactly when some cell fails
numeric conversion, and all-null columns read as `float64`. -/
def isNumCol (col : List CellVal) : Bool :=
  col.all (fun c => match c with | .str _ => false | .date _ _ _ => false | _ => true)

/-- Test `set(names) <= set(numeric.columns)`: each name is present with numeric
dtype. -/
def numericSubset (f : Frame) (names : List String) : Bool :=
  names.all (fun n =>
    match getCol f n with
    | some col => isNumCol col
    | none => false)

/-- Paired observations of two named columns of a frame. -/
def framePairs (f : Frame) (a b : String) : List (ℚ × ℚ) :=
  pairedObs ((getCol f a).getD []) ((getCol f b).getD [])

/-- The two conditional dataset-level notes (app.py lines 84-92). -/
def corrNotes (f : Frame) : List String :=
  (if numericSubset f ["Sleep_Hours", "Mood_Score"] &&
      absCorrGe25 (framePairs f ("Sleep_Hours") ("Mood_Score")) then
    ["📈 Sleep and Mood show correlation."]
  else []) ++
  (if numericSubset f ["Steps", "Mood_Score"] &&
      corrGe25 (framePairs f ("Steps") ("Mood_Score")) then
    ["🏅 Higher activity correlates with better mood."]
  else [])

/-- Model of `df.get(name)` followed by a method call: a missing column gives `None`
and the method call raises `AttributeError`. -/
def getColE (f : Frame) (name : String) : Except PyErr (List CellVal) :=
  match getCol f name with
  | some col => .ok col
  | none => .error .attributeError

/-- Mean of a named column of a frame (`none` when absent or all-null). -/
def meanAt (f : Frame) (name : String) : Option ℚ :=
  colMean ((getCol f name).getD [])

/-- Model of `dataset_recommendations` (app.py lines 76-93): six
`df.get(col).mean()` calls in source order, then the rule engine on the six
means, then the two conditional correlation notes. -/
def dataset_recommendations (f : Frame) : Except PyErr (List String) :=
  (getColE f ("Sleep_Hours")).bind (fun c1 => (colMeanE c1).bind (fun s =>
  (getColE f ("Steps")).bind (fun c2 => (colMeanE c2).bind (fun steps =>
  (getColE f ("Water_Intake_ml")).bind (fun c3 => (colMeanE c3).bind (fun water =>
  (getColE f ("Study_Hours")).bind (fun c4 => (colMeanE c4).bind (fun study =>
  (getColE f ("Wake_Hour")).bind (fun c5 => (colMeanE c5).bind (fun wake =>
  (getColE f ("Mood_Score")).bind (fun c6 => (colMeanE c6).bind (fun mood =>
  Except.ok (recommend_for_values s steps water study wake mood ++
    corrNotes f)))))))))))))

/-! ### The weekday-mood insight (app.py lines 172-175)

`df.groupby('Weekday')['Mood_Score'].mean().sort_values(ascending=False)`
and then `.index[0]`.  `groupby` drops rows with a null key and lists the
group keys in ascending lexicographic order (the keys are strings).
`Series.sort_values(ascending=False)` computes a stable ascending argsort
of the values and reverses it (pandas `nargsort`), placing `NaN` entries
last; so `.index[0]` is the key of the *last* maximal defined entry of the
alphabetically ordered group list. -/

/-- Lexicographic (code-point) order on character lists — Python string
comparison. -/
def lexLe : List Char → List Char → Bool
  | [], _ => true
  | _ :: _, [] => false
  | a :: as, b :: bs =>
    if a.toNat < b.toNat then true
    else if b.toNat < a.toNat then false
    else lexLe as bs

/-- Python `<=` on strings. -/
def strLe (a b : String) : Prop := lexLe a.data b.data = true

instance : DecidableRel strLe := fun a b => instDecidableEqBool (lexLe a.data b.data) true

/-- The distinct weekday keys present, in ascending lexicographic order, as
produced by `groupby('Weekday')` (null keys dropped). -/
def groupKeys (rows : List (Option String × Option ℚ)) : List String :=
  List.insertionSort strLe (rows.filterMap Prod.fst).dedup

/-- Mean mood of one weekday group: mean over the group's non-null mood
values, `none` (`NaN`) when the group has no non-null mood. -/
def groupMean (rows : List (Option String × Option ℚ)) (k : String) : Option ℚ :=
  let ms := rows.filterMap (fun r => if r.1 = some k then r.2 else none)
  if ms.length = 0 then none else some (ms.sum / ms.length)

/-- One step of the maximum scan: keep the entry with the larger value, the
later entry on ties. -/
def maxStep (acc : Option (String × ℚ)) (p : String × ℚ) : Option (String × ℚ) :=
  match acc with
  | none => some p
  | some q => if q.2 ≤ p.2 then some p else some q

/-- First index of the descending stable sort: the last entry attaining the
maximal value (on ties the fold keeps the later entry, matching pandas'
reverse of a stable ascending sort). -/
def argmaxLast (l : List (String × ℚ)) : Option (String × ℚ) :=
  l.foldl maxStep none

/-- The group entries with a defined (non-`NaN`) mean, in group-key order. -/
def definedMeans (rows : List (Option String × Option ℚ)) : List (String × ℚ) :=
  (groupKeys rows).filterMap (fun k => (groupMean rows k).map (fun q => (k, q)))

/-- Model of the weekday-mood insight (app.py lines 172-175): the reported
day, `none` when the aggregation is empty (`len(wk) = 0`).  When every
group mean is `NaN` they all sort last and position 0 keeps the first key. -/
def topMoodDay (rows : List (Option String × Option ℚ)) : Option String :=
  match argmaxLast (definedMeans rows) with
  | some p => some p.1
  | none => (groupKeys rows).head?

/-! ### The bundled 7-row sample dataset (app.py lines 99-108)

The `Date` column of the sample is generated from `pd.Timestamp.today()`
and is therefore not a fixed value; the seven fixed data columns are
embedded below. -/

/-- Sample `Wake_Up_Time` column (line 101). -/
def sampleWake : List String :=
  ["06:30", "07:00", "06:45", "07:15", "06:50", "07:10", "07:00"]

/-- Sample `Sleep_Hours` column (line 102). -/
def sampleSleep : List ℚ := [7.0, 6.5, 7.5, 6.0, 8.0, 7.2, 6.8]

/-- Sample `Steps` column (line 103). -/
def sampleSteps : List ℚ := [5000, 4200, 8000, 3000, 10000, 7200, 6500]

/-- Sample `Calories_Burned` column (line 104). -/
def sampleCalories : List ℚ := [2100, 2000, 2300, 1800, 2600, 2200, 2050]

/-- Sample `Water_Intake_ml` column (line 105). -/
def sampleWater : List ℚ := [2000, 1500, 2500, 1800, 3000, 2200, 2000]

/-- Sample `Study_Hours` column (line 106). -/
def sampleStudy : List ℚ := [2, 3, 1.5, 4, 2.5, 3, 2]

/-- Sample `Mood_Score` column (line 107). -/
def sampleMood : List ℚ := [7, 6, 8, 5, 9, 7, 6]

/-- The sample's derived `Wake_Hour` column, as `parse_features` builds it. -/
def sampleWakeHourCol : List CellVal :=
  ((sampleWake.map (fun s => t2mCell (CellVal.str s))).map wakeHourCell)

/-! ### Concrete inputs used by the theorems below -/

/-- ASCII digit character. -/
def digitChar (n : Nat) : Char := Char.ofNat (48 + n)

/-- Two-digit zero-padded decimal rendering. -/
def fmt2 (n : Nat) : List Char :=
  if n < 10 then ['0', digitChar n] else [digitChar (n / 10), digitChar (n % 10)]

/-- A wall-clock string `"HH:MM"`. -/
def fmtHHMM (h m : Nat) : String := ⟨fmt2 h ++ ':' :: fmt2 m⟩

/-- Observation list with the two coordinates exchanged (the `(j,i)` entry
of the correlation matrix against the `(i,j)` entry). -/
def swapPairs (ps : List (ℚ × ℚ)) : List (ℚ × ℚ) := ps.map (fun p => (p.2, p.1))

/-- A table with every recognized column except `Date`. -/
def noDateFrame : Frame := ⟨[("Sleep_Hours", sampleSleep.map CellVal.num)]⟩

/-- A table with every recognized column except `Wake_Up_Time`. -/
def noWakeFrame : Frame := ⟨[
  ("Date", [CellVal.str ("2024-01-01"), CellVal.str ("2024-01-02")]),
  ("Sleep_Hours", [CellVal.num 7, CellVal.num 6.5]),
  ("Steps", [CellVal.num 5000, CellVal.num 4200]),
  ("Calories_Burned", [CellVal.num 2100, CellVal.num 2000]),
  ("Water_Intake_ml", [CellVal.num 2000, CellVal.num 1500]),
  ("Study_Hours", [CellVal.num 2, CellVal.num 3]),
  ("Mood_Score", [CellVal.num 7, CellVal.num 6])]⟩

/-- One row whose wake time is out of range. -/
def c2InFrame : Frame := ⟨[
  ("Date", [CellVal.str ("2024-01-01")]),
  ("Wake_Up_Time", [CellVal.str ("25:99")]),
  ("Sleep_Hours", [CellVal.num 7])]⟩

/-- Two weekday groups tied on mean mood. -/
def c4TieRows : List (Option String × Option ℚ) :=
  [(some ("Monday"), some 5), (some ("Tuesday"), some 5)]

/-- Two weekday groups with distinct mean moods. -/
def c4PlainRows : List (Option String × Option ℚ) :=
  [(some ("Friday"), some 3), (some ("Monday"), some 4)]

/-- The parsed sample dataset's six metric columns, as
`dataset_recommendations` consumes them. -/
def sampleFrame : Frame := ⟨[
  ("Sleep_Hours", sampleSleep.map CellVal.num),
  ("Steps", sampleSteps.map CellVal.num),
  ("Water_Intake_ml", sampleWater.map CellVal.num),
  ("Study_Hours", sampleStudy.map CellVal.num),
  ("Wake_Hour", sampleWakeHourCol),
  ("Mood_Score", sampleMood.map CellVal.num)]⟩

/-- The parse of `c2InFrame` (checked by evaluation in the witness below). -/
def c2OutFrame : Frame := ⟨[
  ("Date", [CellVal.date 2024 1 1]),
  ("Wake_Up_Time", [CellVal.str ("25:99")]),
  ("Sleep_Hours", [CellVal.num 7]),
  ("Wake_Minutes", [CellVal.num 1599]),
  ("Wake_Hour", [CellVal.num (533 / 20)]),
  ("Weekday", [CellVal.str ("Monday")])]⟩

/-- A one-row frame for exercising the heap-level parser. -/
def heapInFrame : Frame := ⟨[
  ("Date", [CellVal.str ("2024-03-05")]),
  ("Sleep_Hours", [CellVal.num 8])]⟩

/-- Perfectly correlated paired observations. -/
def diagObsCol : List CellVal := [CellVal.num 0, CellVal.num 2]

/-- Paired observations with zero correlation. -/
def zeroCorrObs : List (ℚ × ℚ) := [(0, 0), (1, 1), (2, 0)]

/-! ### Theorems -/

/-- C1: the claim says a table missing recognized columns flows through the
pipeline with the dependent features silently omitted.  The code disagrees:
with `Wake_Up_Time` absent, `parse_features` succeeds but
`dataset_recommendations` evaluates `df.get('Wake_Hour').mean()` on `None`
and raises `AttributeError`; with `Date` absent, `parse_features` itself
raises `KeyError` on the unconditional `df['Date']` read. -/
theorem c1_missing_column_raises :
    (parse_features noWakeFrame).bind dataset_recommendations =
      Except.error PyErr.attributeError ∧
    parse_features noDateFrame = Except.error PyErr.keyError := by decide

/-- C2 counterexample: the claim says the out-of-range string `"25:99"`
fails to parse and leaves the wake fields null.  In the code `t2m` performs
no range check: `"25:99"` parses to `25*60+99 = 1599`, a non-null
`wake_minutes` outside 0–1439. -/
theorem c2_range_not_checked :
    t2m ("25:99") = some 1599 ∧
    t2mCell (CellVal.str ("25:99")) = CellVal.num 1599 ∧
    ((1599 : ℤ) ≤ 1439 → False) := by decide

/-- C3 counterexample: the claim (and §8.6 of the spec) says the sample's
mean `Sleep_Hours` is 6.857.  It is exactly 7: the sample sleep column sums
to 49 over 7 rows.  (6.857 is the sample's mean `Mood_Score`.) -/
theorem c3_sample_sleep_mean_is_seven :
    colMean (sampleSleep.map CellVal.num) = some 7 ∧
    ((7 : ℚ) = 6.857 → False) := by decide

/-- C3 as amended: sample mean `Sleep_Hours` is 7.0 (not 6.857), mean
`Steps` is 43900/7 (truncating to 6271), mean `Water_Intake_ml`/1000 is
15/7 (rounding to 2.14), and the rule engine on the dataset averages emits
the healthy-sleep confirmation and the near-target activity encouragement. -/
theorem c3_sample_scenario :
    colMean (sampleSleep.map CellVal.num) = some 7 ∧
    colMean (sampleSteps.map CellVal.num) = some (43900 / 7) ∧
    ⌊(43900 / 7 : ℚ)⌋ = 6271 ∧
    colMean (sampleWater.map CellVal.num) = some (15000 / 7) ∧
    round2 ((15000 / 7 : ℚ) / 1000) = 2.14 ∧
    colMean (sampleStudy.map CellVal.num) = some (18 / 7) ∧
    colMean sampleWakeHourCol = some (97 / 14) ∧
    colMean (sampleMood.map CellVal.num) = some (48 / 7) ∧
    "✅ Sleep within healthy range — keep it regular." ∈
      recommend_for_values (some 7) (some (43900 / 7)) (some (15000 / 7))
        (some (18 / 7)) (some (97 / 14)) (some (48 / 7)) ∧
    "🏃 Almost there — add a 15-min brisk walk." ∈
      recommend_for_values (some 7) (some (43900 / 7)) (some (15000 / 7))
        (some (18 / 7)) (some (97 / 14)) (some (48 / 7)) := by decide

/-- C4 counterexample: the claim says ties on the highest mean mood are
broken towards the earliest weekday in Monday→Sunday order.  With Monday
and Tuesday tied, the code reports Tuesday: the groupby index is
alphabetical and `sort_values(ascending=False)` reverses a stable ascending
sort, so among tied maxima the lexicographically last key lands first. -/
theorem c4_tie_breaks_to_later_weekday :
    groupMean c4TieRows ("Monday") = some 5 ∧
    groupMean c4TieRows ("Tuesday") = some 5 ∧
    topMoodDay c4TieRows = some ("Tuesday") ∧
    (topMoodDay c4TieRows = some ("Monday") → False) := by decide

/-- C5 counterexample: the claim says the advice list has exactly one item
per evaluated non-null metric.  With all six metrics non-null but mood in
the silent middle band (`5 ≤ mood < 8`), only five items are produced. -/
theorem c5_mood_midband_no_item :
    (recommend_for_values (some 7) (some 9000) (some 2500) (some 3)
        (some 7) (some 6)).length = 5 ∧
    ((recommend_for_values (some 7) (some 9000) (some 2500) (some 3)
        (some 7) (some 6)).length = 6 → False) := by decide

/-- C7: with no mood value the rule engine emits no mood item; mood 4 adds
exactly the low-mood item, mood 9 exactly the good-mood item, and mood 6
adds nothing. -/
theorem c7_mood_optionality :
    (recommend_for_values (some 7) (some 9000) (some 2500) (some 3)
        (some 7) none).countP
      (fun t => t == "🌤 Low mood — sunlight and short walks can help." ||
        t == "🥳 Good mood — note and repeat what helps.") = 0 ∧
    recommend_for_values (some 7) (some 9000) (some 2500) (some 3)
        (some 7) (some 4) =
      recommend_for_values (some 7) (some 9000) (some 2500) (some 3)
          (some 7) none ++
        ["🌤 Low mood — sunlight and short walks can help."] ∧
    recommend_for_values (some 7) (some 9000) (some 2500) (some 3)
        (some 7) (some 9) =
      recommend_for_values (some 7) (some 9000) (some 2500) (some 3)
          (some 7) none ++
        ["🥳 Good mood — note and repeat what helps."] ∧
    recommend_for_values (some 7) (some 9000) (some 2500) (some 3)
        (some 7) (some 6) =
      recommend_for_values (some 7) (some 9000) (some 2500) (some 3)
          (some 7) none := by decide

/-- C8: the sleep thresholds are inclusive at both ends of the healthy
band: 5.9 warns low, 6.0 and 9.5 confirm healthy, 9.6 cautions oversleep. -/
theorem c8_sleep_band_boundaries :
    recommend_for_values (some 5.9) none none none none none =
      ["😴 Sleep seems low → aim for 7–8 hours nightly."] ∧
    recommend_for_values (some 6.0) none none none none none =
      ["✅ Sleep within healthy range — keep it regular."] ∧
    recommend_for_values (some 9.5) none none none none none =
      ["✅ Sleep within healthy range — keep it regular."] ∧
    recommend_for_values (some 9.6) none none none none none =
      ["🛌 Very long sleep — aim for consistent 7–9 hrs."] := by decide

/-- Replacing column `n` leaves lookups of any other name `m` unchanged. -/
theorem find?_setCol_aux (l : List (String × List CellVal)) (n m : String)
    (v : List CellVal) (hne : m ≠ n) :
    List.find? (fun p => p.1 == m) (l.map (fun p => if p.1 == n then (n, v) else p)) =
      List.find? (fun p => p.1 == m) l := by
  induction l with
  | nil => rfl
  | cons p ps ih =>
    rw [List.map_cons]
    by_cases h1 : p.1 = n
    · rw [if_pos (by simp [h1])]
      rw [List.find?_cons_of_neg _ (by simp [Ne.symm hne]),
        List.find?_cons_of_neg _ (by simp [h1, Ne.symm hne]), ih]
    · rw [if_neg (by simp [h1])]
      by_cases h2 : p.1 = m
      · rw [List.find?_cons_of_pos _ (by simp [h2]),
          List.find?_cons_of_pos _ (by simp [h2])]
      · rw [List.find?_cons_of_neg _ (by simp [h2]),
          List.find?_cons_of_neg _ (by simp [h2]), ih]

/-- Writing one column does not change the lookup of another name. -/
theorem getCol_setCol_ne (f : Frame) (n m : String) (v : List CellVal)
    (hne : m ≠ n) : getCol (setCol f n v) m = getCol f m := by
  unfold getCol setCol
  split
  · exact congrArg _ (find?_setCol_aux f.cols n m v hne)
  · rw [List.find?_append]
    have : List.find? (fun p => p.1 == m) [(n, v)] = none := by
      simp [Ne.symm hne]
    rw [this]
    cases List.find? (fun p => p.1 == m) f.cols <;> rfl

/-- On success, `parse_features` only writes the columns `Date`,
`Wake_Minutes`, `Wake_Hour`, `Weekday` and `Water_Liters`; every other
column of the output is the input column. -/
theorem parse_features_preserves (f g : Frame) (hg : parse_features f = Except.ok g)
    (m : String) (hm : m ≠ "Date" ∧ m ≠ "Wake_Minutes" ∧ m ≠ "Wake_Hour" ∧
      m ≠ "Weekday" ∧ m ≠ "Water_Liters") :
    getCol g m = getCol f m := by
  obtain ⟨h1, h2, h3, h4, h5⟩ := hm
  unfold parse_features at hg
  cases hd : getCol f ("Date") with
  | none => rw [hd] at hg; exact absurd hg (by simp)
  | some dcol =>
    rw [hd] at hg
    simp only at hg
    split at hg <;> split at hg <;>
      · cases hg
        simp [getCol_setCol_ne, h1, h2, h3, h4, h5]

/-- C2 as amended: a wake-time string fails to parse exactly when the split
does not give two parts or an `int` conversion fails (out-of-range values
are *not* rejected); on failure the derived wake fields are null (`t2m`
total, no exception), and the remaining raw columns of the record pass
through `parse_features` untouched whatever the wake strings hold. -/
theorem c2_parse_failure_localized :
    (∀ s : String, ∀ hp mp, splitOn ':' s.data = [hp, mp] →
      (pyInt hp = none ∨ pyInt mp = none) → t2m s = none) ∧
    (∀ s : String, ((splitOn ':' s.data).length = 2 → False) → t2m s = none) ∧
    (∀ f g, parse_features f = Except.ok g →
      getCol g ("Sleep_Hours") = getCol f ("Sleep_Hours") ∧
      getCol g ("Steps") = getCol f ("Steps") ∧
      getCol g ("Calories_Burned") = getCol f ("Calories_Burned") ∧
      getCol g ("Water_Intake_ml") = getCol f ("Water_Intake_ml") ∧
      getCol g ("Study_Hours") = getCol f ("Study_Hours") ∧
      getCol g ("Mood_Score") = getCol f ("Mood_Score") ∧
      getCol g ("Wake_Up_Time") = getCol f ("Wake_Up_Time")) := by
  refine ⟨?_, ?_, ?_⟩
  · intro s hp mp hsplit hbad
    unfold t2m
    rw [hsplit]
    show (match pyInt hp, pyInt mp with
      | some hv, some mv => some (hv * 60 + mv)
      | _, _ => none) = none
    rcases hbad with h | h
    · rw [h]
    · rw [h]; try cases pyInt hp <;> rfl
  · intro s hlen
    unfold t2m
    cases hsp : splitOn ':' s.data with
    | nil => rfl
    | cons a t =>
      cases t with
      | nil => rfl
      | cons b t2 =>
        cases t2 with
        | nil => exact absurd (by rw [hsp]; rfl) hlen
        | cons c t3 => rfl
  · intro f g hg
    refine ⟨?_, ?_, ?_, ?_, ?_, ?_, ?_⟩ <;>
      exact parse_features_preserves f g hg _ (by refine ⟨?_, ?_, ?_, ?_, ?_⟩ <;> decide)

/-- Witness for the C2 amended theorem at concrete inputs: a non-numeric
part yields null, a missing colon yields null, and for the out-of-range row
of `c2InFrame` the untouched columns survive `parse_features`. -/
theorem c2_parse_failure_localized_witness :
    t2m ("ab:cd") = none ∧ t2m ("abc") = none ∧
    getCol c2OutFrame ("Sleep_Hours") = getCol c2InFrame ("Sleep_Hours") :=
  ⟨c2_parse_failure_localized.1 ("ab:cd") (['a', 'b']) (['c', 'd']) (by decide)
      (Or.inl (by decide)),
    c2_parse_failure_localized.2.1 ("abc") (by decide),
    (c2_parse_failure_localized.2.2 c2InFrame c2OutFrame (by decide)).1⟩

/-- C6: every valid time string `"HH:MM"` with `0 ≤ H ≤ 23`, `0 ≤ M ≤ 59`
parses to `wake_minutes = H*60 + M` (also cellwise through the column
`apply`), and the derived `wake_hour` cell is `wake_minutes/60` rounded to
two decimals. -/
theorem c6_valid_time_roundtrip : ∀ h : Nat, h < 24 → ∀ m : Nat, m < 60 →
    t2m (fmtHHMM h m) = some (h * 60 + m) ∧
    t2mCell (CellVal.str (fmtHHMM h m)) = CellVal.num ((h * 60 + m : Nat) : ℚ) ∧
    wakeHourCell (CellVal.num ((h * 60 + m : Nat) : ℚ)) =
      CellVal.num (round2 (((h * 60 + m : Nat) : ℚ) / 60)) := by decide

/-- Witness for C6 at the largest valid time, 23:59. -/
theorem c6_valid_time_roundtrip_witness :
    t2m (fmtHHMM 23 59) = some (23 * 60 + 59) ∧
    t2mCell (CellVal.str (fmtHHMM 23 59)) = CellVal.num ((23 * 60 + 59 : Nat) : ℚ) ∧
    wakeHourCell (CellVal.num ((23 * 60 + 59 : Nat) : ℚ)) =
      CellVal.num (round2 (((23 * 60 + 59 : Nat) : ℚ) / 60)) :=
  c6_valid_time_roundtrip 23 (by decide) 59 (by decide)

/-- Reflexivity of the code-point order. -/
theorem lexLe_refl : ∀ a : List Char, lexLe a a = true
  | [] => rfl
  | c :: cs => by unfold lexLe; simp [lexLe_refl cs]

/-- Totality of the code-point order. -/
theorem lexLe_total : ∀ a b : List Char, lexLe a b = true ∨ lexLe b a = true
  | [], _ => Or.inl rfl
  | _ :: _, [] => Or.inr rfl
  | a :: as, b :: bs => by
    unfold lexLe
    rcases Nat.lt_trichotomy a.toNat b.toNat with h | h | h
    · left; simp [h]
    · have h1 : ¬ a.toNat < b.toNat := by omega
      have h2 : ¬ b.toNat < a.toNat := by omega
      simpa [h1, h2] using lexLe_total as bs
    · right; simp [h, Nat.lt_asymm h]

/-- Transitivity of the code-point order. -/
theorem lexLe_trans : ∀ a b c : List Char, lexLe a b = true → lexLe b c = true →
    lexLe a c = true
  | [], _, _, _, _ => rfl
  | _ :: _, [], _, hab, _ => by simp [lexLe] at hab
  | _ :: _, _ :: _, [], _, hbc => by simp [lexLe] at hbc
  | a :: as, b :: bs, c :: cs, hab, hbc => by
    unfold lexLe at hab hbc ⊢
    rcases Nat.lt_trichotomy a.toNat b.toNat with h1 | h1 | h1
    · rcases Nat.lt_trichotomy b.toNat c.toNat with h2 | h2 | h2
      · simp [show a.toNat < c.toNat by omega]
      · simp [show a.toNat < c.toNat by omega]
      · rw [if_neg (by omega), if_pos h2] at hbc
        exact absurd hbc (by simp)
    · rw [if_neg (by omega), if_neg (by omega)] at hab
      rcases Nat.lt_trichotomy b.toNat c.toNat with h2 | h2 | h2
      · simp [show a.toNat < c.toNat by omega]
      · rw [if_neg (by omega), if_neg (by omega)] at hbc
        rw [if_neg (by omega), if_neg (by omega)]
        exact lexLe_trans as bs cs hab hbc
      · rw [if_neg (by omega), if_pos h2] at hbc
        exact absurd hbc (by simp)
    · rw [if_neg (by omega), if_pos h1] at hab
      exact absurd hab (by simp)

instance : IsTotal String strLe := ⟨fun a b => lexLe_total a.data b.data⟩

instance : IsTrans String strLe :=
  ⟨fun a b c hab hbc => lexLe_trans a.data b.data c.data hab hbc⟩

/-- Scan step on an empty accumulator. -/
theorem maxStep_none (p : String × ℚ) : maxStep none p = some p := rfl

/-- Scan step on a non-empty accumulator. -/
theorem maxStep_some (a p : String × ℚ) :
    maxStep (some a) p = if a.2 ≤ p.2 then some p else some a := rfl

/-- A maximum scan started on a non-empty accumulator stays non-empty. -/
theorem foldl_maxStep_some : ∀ (l : List (String × ℚ)) (a : String × ℚ),
    l.foldl maxStep (some a) ≠ none
  | [], a => by simp
  | p :: rest, a => by
    show List.foldl maxStep (maxStep (some a) p) rest ≠ none
    rw [maxStep_some]
    split <;> exact foldl_maxStep_some rest _

/-- The maximum scan returns `none` only on the empty list. -/
theorem argmaxLast_eq_none (l : List (String × ℚ)) (h : argmaxLast l = none) :
    l = [] := by
  cases l with
  | nil => rfl
  | cons p rest => exact absurd h (foldl_maxStep_some rest p)

/-- Specification of the maximum scan on a list whose keys are ascending:
the result dominates every entry and every tied entry has a key below the
result's key. -/
theorem maxStep_fold_spec :
    ∀ (l : List (String × ℚ)) (acc : Option (String × ℚ)),
      List.Pairwise (fun p q => strLe p.1 q.1) l →
      (∀ a, acc = some a → ∀ p ∈ l, strLe a.1 p.1) →
      ∀ m, l.foldl maxStep acc = some m →
        (m ∈ l ∨ acc = some m) ∧
        (∀ p ∈ l, p.2 ≤ m.2 ∧ (p.2 = m.2 → strLe p.1 m.1)) ∧
        (∀ a, acc = some a → a.2 ≤ m.2 ∧ strLe a.1 m.1)
  | [], acc, _, hAcc, m, hm => by
    simp only [List.foldl_nil] at hm
    refine ⟨Or.inr hm, by simp, ?_⟩
    intro a ha
    rw [ha] at hm
    cases hm
    exact ⟨le_refl _, lexLe_refl _⟩
  | p :: rest, acc, hPair, hAcc, m, hm => by
    rw [List.foldl_cons] at hm
    obtain ⟨hHead, hPairRest⟩ := List.pairwise_cons.mp hPair
    have hAccNew : ∀ b, maxStep acc p = some b → ∀ q ∈ rest, strLe b.1 q.1 := by
      intro b hb q hq
      cases acc with
      | none =>
        rw [maxStep_none] at hb
        cases hb
        exact hHead q hq
      | some a =>
        rw [maxStep_some] at hb
        by_cases hap : a.2 ≤ p.2
        · rw [if_pos hap] at hb
          cases hb
          exact hHead q hq
        · rw [if_neg hap] at hb
          cases hb
          exact hAcc _ rfl q (List.mem_cons_of_mem _ hq)
    obtain ⟨hmem, hrest, haccCl⟩ :=
      maxStep_fold_spec rest (maxStep acc p) hPairRest hAccNew m hm
    have hmem' : m ∈ p :: rest ∨ acc = some m := by
      rcases hmem with h | h
      · exact Or.inl (List.mem_cons_of_mem _ h)
      · cases acc with
        | none =>
          rw [maxStep_none] at h
          cases h
          exact Or.inl (List.mem_cons_self _ _)
        | some a =>
          rw [maxStep_some] at h
          by_cases hap : a.2 ≤ p.2
          · rw [if_pos hap] at h
            cases h
            exact Or.inl (List.mem_cons_self _ _)
          · rw [if_neg hap] at h
            exact Or.inr h
    refine ⟨hmem', ?_, ?_⟩
    · intro q hq
      rcases List.mem_cons.mp hq with hqp | hq'
      · subst hqp
        cases acc with
        | none =>
          have h' := haccCl q (maxStep_none q)
          exact ⟨h'.1, fun _ => h'.2⟩
        | some a =>
          by_cases hap : a.2 ≤ q.2
          · have h' := haccCl q (by rw [maxStep_some, if_pos hap])
            exact ⟨h'.1, fun _ => h'.2⟩
          · have ha' := haccCl a (by rw [maxStep_some, if_neg hap])
            have hq2 : q.2 < a.2 := lt_of_not_le hap
            refine ⟨le_trans (le_of_lt hq2) ha'.1, ?_⟩
            intro he
            exact absurd he (ne_of_lt (lt_of_lt_of_le hq2 ha'.1))
      · exact hrest q hq'
    · intro a ha
      have hkey : strLe a.1 m.1 := by
        rcases hmem' with h | h
        · exact hAcc a ha m h
        · rw [ha] at h
          cases h
          exact lexLe_refl _
      refine ⟨?_, hkey⟩
      by_cases hap : a.2 ≤ p.2
      · have hp' := haccCl p (by rw [ha, maxStep_some, if_pos hap])
        exact le_trans hap hp'.1
      · have ha' := haccCl a (by rw [ha, maxStep_some, if_neg hap])
        exact ha'.1

/-- C4 as amended: when the weekday/mood aggregation is non-empty the
insight reports a weekday; the reported weekday has a defined mean mood
that is maximal among all defined group means; and a weekday tied with it
compares at or below it in *lexicographic name order* — the reported day is
the lexicographically last tied maximum, not the earliest in Monday→Sunday
order. -/
theorem c4_top_mood_day :
    (∀ rows : List (Option String × Option ℚ),
      groupKeys rows ≠ [] → (topMoodDay rows).isSome = true) ∧
    (∀ rows k k' q', topMoodDay rows = some k → k' ∈ groupKeys rows →
      groupMean rows k' = some q' →
      k ∈ groupKeys rows ∧ (groupMean rows k).isSome = true ∧
      q' ≤ (groupMean rows k).getD 0 ∧
      (q' = (groupMean rows k).getD 0 → strLe k' k)) := by
  constructor
  · intro rows hne
    unfold topMoodDay
    cases ha : argmaxLast (definedMeans rows) with
    | some p => rfl
    | none =>
      cases hks : groupKeys rows with
      | nil => exact absurd hks hne
      | cons x xs => rfl
  · intro rows k k' q' htop hk' hq'
    have hkd : (k', q') ∈ definedMeans rows := by
      unfold definedMeans
      exact List.mem_filterMap.mpr ⟨k', hk', by rw [hq']; rfl⟩
    unfold topMoodDay at htop
    cases ha : argmaxLast (definedMeans rows) with
    | none =>
      rw [argmaxLast_eq_none _ ha] at hkd
      cases hkd
    | some m =>
      rw [ha] at htop
      have hk : m.1 = k := by cases htop; rfl
      have hPairKeys : List.Pairwise (fun a b : String => strLe a b) (groupKeys rows) := by
        unfold groupKeys
        exact List.sorted_insertionSort strLe _
      have hPairDef : List.Pairwise (fun p q : String × ℚ => strLe p.1 q.1)
          (definedMeans rows) := by
        unfold definedMeans
        refine List.Pairwise.filterMap _ ?_ hPairKeys
        intro a a' hr b hb b' hb'
        obtain ⟨qa, hqa, hba⟩ := Option.map_eq_some'.mp hb
        obtain ⟨qa', hqa', hba'⟩ := Option.map_eq_some'.mp hb'
        rw [← hba, ← hba']
        exact hr
      obtain ⟨hmem, hvals, _⟩ :=
        maxStep_fold_spec (definedMeans rows) none hPairDef
          (by intro a h; exact absurd h (by simp)) m ha
      have hmemD : m ∈ definedMeans rows := by
        rcases hmem with h | h
        · exact h
        · cases h
      obtain ⟨x, hx, hmapx⟩ := List.mem_filterMap.mp hmemD
      obtain ⟨qx, hqx, hx2⟩ := Option.map_eq_some'.mp hmapx
      cases hx2
      cases hk
      have h2 := hvals (k', q') hkd
      refine ⟨hx, ?_, ?_, ?_⟩
      · rw [hqx]; rfl
      · rw [hqx]; exact h2.1
      · rw [hqx]; intro he; exact h2.2 he

/-- Witness for C4 at a concrete aggregation with two weekdays and distinct
means: the reported day is Monday, whose mean 4 dominates Friday's mean 3. -/
theorem c4_top_mood_day_witness :
    (topMoodDay c4PlainRows).isSome = true ∧
    ("Monday" ∈ groupKeys c4PlainRows ∧
      (groupMean c4PlainRows ("Monday")).isSome = true ∧
      (3 : ℚ) ≤ (groupMean c4PlainRows ("Monday")).getD 0 ∧
      ((3 : ℚ) = (groupMean c4PlainRows ("Monday")).getD 0 →
        strLe ("Friday") ("Monday"))) :=
  ⟨c4_top_mood_day.1 c4PlainRows (by decide),
    c4_top_mood_day.2 c4PlainRows ("Monday") ("Friday") 3 (by decide) (by decide)
      (by decide)⟩

/-- Binding an error propagates the error. -/
theorem except_bind_error {α β : Type} (e : PyErr) (g : α → Except PyErr β) :
    (Except.error e : Except PyErr α).bind g = Except.error e := rfl

/-- Binding a success applies the continuation. -/
theorem except_bind_ok {α β : Type} (a : α) (g : α → Except PyErr β) :
    (Except.ok a : Except PyErr α).bind g = g a := rfl

/-- A successful `colMeanE` returns the column mean. -/
theorem colMeanE_ok (col : List CellVal) (v : Option ℚ)
    (h : colMeanE col = Except.ok v) : v = colMean col := by
  unfold colMeanE at h
  split at h
  · cases h
  · cases h; rfl

/-- A successful `getColE` is a present column. -/
theorem getColE_ok (f : Frame) (n : String) (col : List CellVal)
    (h : getColE f n = Except.ok col) : getCol f n = some col := by
  unfold getColE at h
  cases hg : getCol f n with
  | some c => rw [hg] at h; cases h; rfl
  | none => rw [hg] at h; cases h

/-- C5 as amended: the advice list is the concatenation of the per-metric
blocks in the fixed order sleep, steps, hydration, study, wake, mood; each
of the first five blocks yields exactly one item when its metric is
non-null and none otherwise; the mood block yields one item only when
`mood < 5` or `mood ≥ 8` (the non-null middle band yields none, contrary
to the claim's "one item per evaluated metric"); and the dataset-level
output is the rule-engine output on the six column means followed by the
correlation notes. -/
theorem c5_advice_order_and_counts :
    (∀ s st w stu wa mo : Option ℚ,
      recommend_for_values s st w stu wa mo =
        sleepAdvice s ++ stepsAdvice st ++ waterAdvice w ++
          studyAdvice stu ++ wakeAdvice wa ++ moodAdvice mo ∧
      (sleepAdvice s).length = (if s.isSome then 1 else 0) ∧
      (stepsAdvice st).length = (if st.isSome then 1 else 0) ∧
      (waterAdvice w).length = (if w.isSome then 1 else 0) ∧
      (studyAdvice stu).length = (if stu.isSome then 1 else 0) ∧
      (wakeAdvice wa).length = (if wa.isSome then 1 else 0) ∧
      (moodAdvice mo).length =
        (match mo with
          | none => 0
          | some m => if m < 5 ∨ 8 ≤ m then 1 else 0)) ∧
    (∀ f recs, dataset_recommendations f = Except.ok recs →
      recs = recommend_for_values (meanAt f ("Sleep_Hours"))
          (meanAt f ("Steps")) (meanAt f ("Water_Intake_ml"))
          (meanAt f ("Study_Hours")) (meanAt f ("Wake_Hour"))
          (meanAt f ("Mood_Score")) ++ corrNotes f) := by
  refine ⟨?_, ?_⟩
  · intro s st w stu wa mo
    refine ⟨rfl, ?_, ?_, ?_, ?_, ?_, ?_⟩
    · cases s with
      | none => rfl
      | some v =>
        show (sleepAdvice (some v)).length = 1
        simp only [sleepAdvice]; split_ifs <;> rfl
    · cases st with
      | none => rfl
      | some v =>
        show (stepsAdvice (some v)).length = 1
        simp only [stepsAdvice]; split_ifs <;> rfl
    · cases w with
      | none => rfl
      | some v =>
        show (waterAdvice (some v)).length = 1
        simp only [waterAdvice]; split_ifs <;> rfl
    · cases stu with
      | none => rfl
      | some v =>
        show (studyAdvice (some v)).length = 1
        simp only [studyAdvice]; split_ifs <;> rfl
    · cases wa with
      | none => rfl
      | some v =>
        show (wakeAdvice (some v)).length = 1
        simp only [wakeAdvice]; split_ifs <;> rfl
    · cases mo with
      | none => rfl
      | some m =>
        show (moodAdvice (some m)).length = if m < 5 ∨ 8 ≤ m then 1 else 0
        simp only [moodAdvice]
        by_cases h1 : m < 5
        · simp [h1]
        · by_cases h2 : (8 : ℚ) ≤ m
          · simp [h1, h2]
          · simp [h1, h2]
  · intro f recs hr
    unfold dataset_recommendations at hr
    cases hg1 : getColE f ("Sleep_Hours") with
    | error e => rw [hg1, except_bind_error] at hr; cases hr
    | ok c1 =>
    simp only [hg1, except_bind_ok] at hr
    cases hm1 : colMeanE c1 with
    | error e => rw [hm1, except_bind_error] at hr; cases hr
    | ok v1 =>
    simp only [hm1, except_bind_ok] at hr
    cases hg2 : getColE f ("Steps") with
    | error e => rw [hg2, except_bind_error] at hr; cases hr
    | ok c2 =>
    simp only [hg2, except_bind_ok] at hr
    cases hm2 : colMeanE c2 with
    | error e => rw [hm2, except_bind_error] at hr; cases hr
    | ok v2 =>
    simp only [hm2, except_bind_ok] at hr
    cases hg3 : getColE f ("Water_Intake_ml") with
    | error e => rw [hg3, except_bind_error] at hr; cases hr
    | ok c3 =>
    simp only [hg3, except_bind_ok] at hr
    cases hm3 : colMeanE c3 with
    | error e => rw [hm3, except_bind_error] at hr; cases hr
    | ok v3 =>
    simp only [hm3, except_bind_ok] at hr
    cases hg4 : getColE f ("Study_Hours") with
    | error e => rw [hg4, except_bind_error] at hr; cases hr
    | ok c4 =>
    simp only [hg4, except_bind_ok] at hr
    cases hm4 : colMeanE c4 with
    | error e => rw [hm4, except_bind_error] at hr; cases hr
    | ok v4 =>
    simp only [hm4, except_bind_ok] at hr
    cases hg5 : getColE f ("Wake_Hour") with
    | error e => rw [hg5, except_bind_error] at hr; cases hr
    | ok c5 =>
    simp only [hg5, except_bind_ok] at hr
    cases hm5 : colMeanE c5 with
    | error e => rw [hm5, except_bind_error] at hr; cases hr
    | ok v5 =>
    simp only [hm5, except_bind_ok] at hr
    cases hg6 : getColE f ("Mood_Score") with
    | error e => rw [hg6, except_bind_error] at hr; cases hr
    | ok c6 =>
    simp only [hg6, except_bind_ok] at hr
    cases hm6 : colMeanE c6 with
    | error e => rw [hm6, except_bind_error] at hr; cases hr
    | ok v6 =>
    simp only [hm6, except_bind_ok] at hr
    cases hr
    have e1 : v1 = meanAt f ("Sleep_Hours") := by
      unfold meanAt; rw [getColE_ok f _ c1 hg1]; exact colMeanE_ok c1 v1 hm1
    have e2 : v2 = meanAt f ("Steps") := by
      unfold meanAt; rw [getColE_ok f _ c2 hg2]; exact colMeanE_ok c2 v2 hm2
    have e3 : v3 = meanAt f ("Water_Intake_ml") := by
      unfold meanAt; rw [getColE_ok f _ c3 hg3]; exact colMeanE_ok c3 v3 hm3
    have e4 : v4 = meanAt f ("Study_Hours") := by
      unfold meanAt; rw [getColE_ok f _ c4 hg4]; exact colMeanE_ok c4 v4 hm4
    have e5 : v5 = meanAt f ("Wake_Hour") := by
      unfold meanAt; rw [getColE_ok f _ c5 hg5]; exact colMeanE_ok c5 v5 hm5
    have e6 : v6 = meanAt f ("Mood_Score") := by
      unfold meanAt; rw [getColE_ok f _ c6 hg6]; exact colMeanE_ok c6 v6 hm6
    rw [e1, e2, e3, e4, e5, e6]

/-- Witness for C5: the sample dataset's six-column frame reaches the
success branch, and its output decomposes as rule-engine output on the six
means followed by the correlation notes. -/
theorem c5_advice_order_and_counts_witness :
    (dataset_recommendations sampleFrame).toOption.getD [] =
      recommend_for_values (meanAt sampleFrame ("Sleep_Hours"))
        (meanAt sampleFrame ("Steps")) (meanAt sampleFrame ("Water_Intake_ml"))
        (meanAt sampleFrame ("Study_Hours")) (meanAt sampleFrame ("Wake_Hour"))
        (meanAt sampleFrame ("Mood_Score")) ++ corrNotes sampleFrame :=
  c5_advice_order_and_counts.2 sampleFrame _ (by decide)

/-- Sums over a mapped list as sums over `Fin`. -/
theorem list_map_sum_fin (l : List (ℚ × ℚ)) (g : ℚ × ℚ → ℚ) :
    (l.map g).sum = ∑ i : Fin l.length, g (l.get i) := by
  conv_lhs => rw [← List.ofFn_get l]
  rw [List.map_ofFn, List.sum_ofFn]
  rfl

/-- Cauchy–Schwarz for lists of rational pairs. -/
theorem list_inner_sq_le (l : List (ℚ × ℚ)) :
    ((l.map (fun p => p.1 * p.2)).sum) ^ 2 ≤
      ((l.map (fun p => p.1 ^ 2)).sum) * ((l.map (fun p => p.2 ^ 2)).sum) := by
  rw [list_map_sum_fin l (fun p => p.1 * p.2), list_map_sum_fin l (fun p => p.1 ^ 2),
    list_map_sum_fin l (fun p => p.2 ^ 2)]
  exact Finset.sum_mul_sq_le_sq_mul_sq Finset.univ (fun i => (l.get i).1)
    (fun i => (l.get i).2)

/-- The numerator squared is bounded by the squared denominator. -/
theorem sxy_sq_le (ps : List (ℚ × ℚ)) : sxy ps ^ 2 ≤ corrDen ps := by
  unfold sxy corrDen sxx syy
  exact list_inner_sq_le (centered ps)

/-- Second moments are non-negative. -/
theorem sxx_nonneg (ps : List (ℚ × ℚ)) : 0 ≤ sxx ps := by
  unfold sxx
  refine List.sum_nonneg ?_
  intro x hx
  obtain ⟨p, _, rfl⟩ := List.mem_map.mp hx
  positivity

/-- Pairwise-complete observations of the transposed entry. -/
theorem pairedObs_swap : ∀ xs ys : List CellVal,
    pairedObs ys xs = swapPairs (pairedObs xs ys)
  | [], ys => by cases ys <;> rfl
  | x :: xs, [] => rfl
  | x :: xs, y :: ys => by
    have ih := pairedObs_swap xs ys
    unfold pairedObs swapPairs at ih ⊢
    simp only [List.zip_cons_cons, List.filterMap_cons]
    cases x <;> cases y <;> simp_all

/-- The numerator is symmetric under transposition. -/
theorem sxy_swapPairs (ps : List (ℚ × ℚ)) : sxy (swapPairs ps) = sxy ps := by
  unfold sxy centered swapPairs
  simp only [List.map_map, Function.comp_def]
  congr 1
  congr 1
  funext p
  ring

/-- The first moment of the transposed entry is the second moment. -/
theorem sxx_swapPairs (ps : List (ℚ × ℚ)) : sxx (swapPairs ps) = syy ps := by
  unfold sxx syy centered swapPairs
  simp only [List.map_map, Function.comp_def]

/-- The second moment of the transposed entry is the first moment. -/
theorem syy_swapPairs (ps : List (ℚ × ℚ)) : syy (swapPairs ps) = sxx ps := by
  unfold sxx syy centered swapPairs
  simp only [List.map_map, Function.comp_def]

/-- The squared denominator is symmetric under transposition. -/
theorem corrDen_swapPairs (ps : List (ℚ × ℚ)) :
    corrDen (swapPairs ps) = corrDen ps := by
  unfold corrDen
  rw [sxx_swapPairs, syy_swapPairs, mul_comm]

/-- Self-pairing keeps exactly the numeric cells, duplicated. -/
theorem pairedObs_self : ∀ xs : List CellVal,
    pairedObs xs xs = (numCells xs).map (fun q => (q, q))
  | [] => rfl
  | x :: xs => by
    have ih := pairedObs_self xs
    unfold pairedObs numCells at ih ⊢
    simp only [List.zip_cons_cons, List.filterMap_cons]
    cases x <;> simp_all

/-- On a duplicated list the numerator equals the second moment. -/
theorem sxy_diag (l : List ℚ) :
    sxy (l.map (fun q => (q, q))) = sxx (l.map (fun q => (q, q))) := by
  unfold sxy sxx centered
  simp only [List.map_map, Function.comp_def]
  congr 1
  congr 1
  funext q
  ring

/-- On a duplicated list both second moments agree. -/
theorem syy_diag (l : List ℚ) :
    syy (l.map (fun q => (q, q))) = sxx (l.map (fun q => (q, q))) := by
  unfold syy sxx centered
  simp only [List.map_map, Function.comp_def]

/-- C9: the Pearson correlation entries of the matrix are symmetric
(`corr[i][j] = corr[j][i]` both as rational data and as real values), every
defined diagonal entry is exactly 1, and every defined entry lies in
`[-1, 1]`. -/
theorem c9_correlation_matrix :
    (∀ xs ys : List CellVal,
      pairedObs ys xs = swapPairs (pairedObs xs ys) ∧
      sxy (pairedObs ys xs) = sxy (pairedObs xs ys) ∧
      corrDen (pairedObs ys xs) = corrDen (pairedObs xs ys) ∧
      (∀ r : ℝ, IsCorr (pairedObs xs ys) r ↔ IsCorr (pairedObs ys xs) r)) ∧
    (∀ xs : List CellVal, corrDefined (pairedObs xs xs) →
      IsCorr (pairedObs xs xs) 1) ∧
    (∀ ps r, corrDefined ps → IsCorr ps r → -1 ≤ r ∧ r ≤ 1) := by
  refine ⟨?_, ?_, ?_⟩
  · intro xs ys
    have hswap := pairedObs_swap xs ys
    have hsxy : sxy (pairedObs ys xs) = sxy (pairedObs xs ys) := by
      rw [hswap, sxy_swapPairs]
    have hden : corrDen (pairedObs ys xs) = corrDen (pairedObs xs ys) := by
      rw [hswap, corrDen_swapPairs]
    refine ⟨hswap, hsxy, hden, ?_⟩
    intro r
    unfold IsCorr
    rw [hsxy, hden]
  · intro xs hdef
    unfold corrDefined at hdef
    rw [pairedObs_self xs] at hdef ⊢
    unfold corrDen at hdef
    rw [syy_diag] at hdef
    have hS0 : 0 ≤ sxx ((numCells xs).map (fun q => (q, q))) := sxx_nonneg _
    have hS : 0 < sxx ((numCells xs).map (fun q => (q, q))) := by
      rcases lt_or_eq_of_le hS0 with h | h
      · exact h
      · rw [← h] at hdef; simp at hdef
    unfold IsCorr
    rw [sxy_diag]
    unfold corrDen
    rw [syy_diag]
    push_cast
    rw [one_mul, Real.sqrt_mul_self (by exact_mod_cast le_of_lt hS)]
  · intro ps r hdef hr
    unfold corrDefined at hdef
    unfold IsCorr at hr
    have hD : (0 : ℝ) < ((corrDen ps : ℚ) : ℝ) := by exact_mod_cast hdef
    have hsq : ((sxy ps : ℚ) : ℝ) ^ 2 ≤ ((corrDen ps : ℚ) : ℝ) := by
      have := sxy_sq_le ps
      calc ((sxy ps : ℚ) : ℝ) ^ 2 = (((sxy ps ^ 2 : ℚ)) : ℝ) := by push_cast; ring
        _ ≤ ((corrDen ps : ℚ) : ℝ) := by exact_mod_cast this
    have hr2 : r ^ 2 * ((corrDen ps : ℚ) : ℝ) = ((sxy ps : ℚ) : ℝ) ^ 2 := by
      rw [← hr]
      rw [mul_pow, Real.sq_sqrt (le_of_lt hD)]
    have hr1 : r ^ 2 ≤ 1 := by
      have h3 : r ^ 2 * ((corrDen ps : ℚ) : ℝ) ≤ 1 * ((corrDen ps : ℚ) : ℝ) := by
        rw [hr2, one_mul]; exact hsq
      exact le_of_mul_le_mul_right h3 hD
    have habs : |r| ≤ 1 := by rwa [sq_le_one_iff_abs_le_one] at hr1
    exact abs_le.mp habs

/-- Witness for C9: the perfectly correlated column `[0, 2]` paired with
itself has correlation 1, and the zero-correlation observation list
realizes a correlation inside `[-1, 1]`. -/
theorem c9_correlation_matrix_witness :
    IsCorr (pairedObs diagObsCol diagObsCol) 1 ∧ (-1 ≤ (0 : ℝ) ∧ (0 : ℝ) ≤ 1) :=
  ⟨c9_correlation_matrix.2.1 diagObsCol (by decide),
    c9_correlation_matrix.2.2 zeroCorrObs 0 (by decide) (by
      have hz : sxy zeroCorrObs = 0 := by decide
      simp [IsCorr, hz])⟩

/-- An in-place column assignment on the object at `r` leaves every other
reference untouched. -/
theorem heapSet_getElem_ne (h : Heap) (r i : Nat) (name : String)
    (v : List CellVal) (hne : r ≠ i) : (heapSet h r name v)[i]? = h[i]? := by
  unfold heapSet
  exact List.getElem?_set_ne hne

/-- C10: `parse_features` does not mutate its argument.  Running the
imperative body on any heap leaves every pre-existing object unchanged —
in particular the caller's dataframe — and a successful run returns the
reference of the freshly allocated copy, not the caller's reference. -/
theorem c10_parse_features_no_mutation :
    ∀ (h : Heap) (df i : Nat), i < h.length →
      (parse_features_prog h df).1[i]? = h[i]? ∧
      (∀ r, (parse_features_prog h df).2 = Except.ok r → r = h.length) := by
  intro h df i hi
  have hne : h.length ≠ i := fun hc => absurd hi (by rw [hc]; exact lt_irrefl i)
  have happ : (h ++ [heapGet h df])[i]? = h[i]? := List.getElem?_append_left hi
  constructor
  · show (parse_features_prog h df).1[i]? = h[i]?
    simp only [parse_features_prog]
    split
    · exact happ
    · dsimp only
      split <;> split <;>
        simp only [heapSet_getElem_ne _ _ _ _ _ hne, happ]
  · intro r hr
    simp only [parse_features_prog] at hr
    split at hr
    · cases hr
    · cases hr
      rfl

/-- Witness for C10 on a one-object heap: the caller's frame at reference 0
is unchanged and the returned reference is the fresh object 1. -/
theorem c10_parse_features_no_mutation_witness :
    (parse_features_prog [heapInFrame] 0).1[0]? = [heapInFrame][0]? ∧
    (∀ r, (parse_features_prog [heapInFrame] 0).2 = Except.ok r →
      r = [heapInFrame].length) :=
  c10_parse_features_no_mutation [heapInFrame] 0 0 (by decide)

end Wellness
